import Mathlib

/-
Verification of the Cloud Files storage adapter (cumulus/storage.py).

Object names are modelled as lists of characters (Python strings).
The external object-storage client library (cloudfiles) is modelled
explicitly where the adapter depends on its behaviour: listing returns
the container object names under a string prefix, object reads return a
byte range, delete/fetch signal not-found conditions.
-/

/-- An object name: a flat string key, modelled as a list of characters. -/
abbrev Name := List Char

/-- Lexicographic (code-point) order on names, as Python string comparison. -/
def nameLe : Name → Name → Bool
  | [], _ => true
  | _ :: _, [] => false
  | a :: as, b :: bs => if a < b then true else if b < a then false else nameLe as bs

/-- Insert a name into a list sorted by nameLe. -/
def insertLe (x : Name) : List Name → List Name
  | [] => [x]
  | y :: ys => if nameLe x y then x :: y :: ys else y :: insertLe x ys

/-- Sort names lexicographically, as the sort call on the directory list. -/
def sortNames : List Name → List Name
  | [] => []
  | x :: xs => insertLe x (sortNames xs)

/-- Add a name to a duplicate-free accumulation, as the Python set add. -/
def setAdd (l : List Name) (x : Name) : List Name :=
  if x ∈ l then l else l ++ [x]

/-- The path normalisation shared by listdir and full_listdir:
append a slash when the path is non-empty and does not already end in one. -/
def normalizePath (p : Name) : Name :=
  if p ≠ [] ∧ p.getLast? ≠ some '/' then p ++ ['/'] else p

/-- Model of the external client library listing: the object names of the
container that start with the given string. -/
def listObjects (objs : List Name) (pre : Name) : List Name :=
  objs.filter (fun n => pre.isPrefixOf n)

/-- First index of a slash in a list of characters, as the Python find. -/
def findSlashIdx : List Char → Option Nat
  | [] => none
  | c :: cs => if c = '/' then some 0 else (findSlashIdx cs).map (· + 1)

/-- The slash marker of full_listdir: Python find on name[1:-1] plus one,
so zero means that no interior slash was found. -/
def pyFindSlash (r : List Char) : Nat :=
  match findSlashIdx r with
  | none => 0
  | some i => i + 1

/-- One loop iteration of full_listdir: strip the prefix, look for a slash
strictly inside the remainder, and classify the remainder as a directory
entry (up to the slash), a file entry, or nothing when empty. -/
def listdirStep (plen : Nat) (acc : List Name × List Name) (name0 : Name) :
    List Name × List Name :=
  let nm := name0.drop plen
  let slash := pyFindSlash ((nm.drop 1).dropLast)
  if slash ≠ 0 then (setAdd acc.1 (nm.take slash), acc.2)
  else if nm ≠ [] then (acc.1, acc.2 ++ [nm])
  else acc

/-- full_listdir over a container object listing: normalise the path, walk
every object under the prefix, and return the sorted deduplicated directory
entries with the file entries in listing order. -/
def full_listdir (objs : List Name) (p : Name) : List Name × List Name :=
  let p2 := normalizePath p
  let res := (listObjects objs p2).foldl (listdirStep p2.length) ([], [])
  (sortNames res.1, res.2)

/-- listdir (quick listing): normalise the path and return every listed
object name with the prefix stripped, with no directory reconstruction. -/
def listdir (objs : List Name) (p : Name) : List Name × List Name :=
  let p2 := normalizePath p
  ([], (listObjects objs p2).foldl (fun fs n => fs ++ [n.drop p2.length]) [])

/-- Concrete container contents used by the listing examples. -/
def exA : Name := ['a', '.', 't', 'x', 't']

/-- Concrete container contents used by the listing examples. -/
def exBC : Name := ['b', '/', 'c', '.', 't', 'x', 't']

/-- Concrete container contents used by the listing examples. -/
def exBDE : Name := ['b', '/', 'd', '/', 'e', '.', 't', 'x', 't']

/-- Model of the external client library delete_object: removes the object,
signalling a 404 response error when it is not present. -/
def delete_object (objs : List Name) (n : Name) : Except Nat (List Name) :=
  if n ∈ objs then Except.ok (objs.erase n) else Except.error 404

/-- The adapter delete over the container model: forward to delete_object,
swallow a 404 response error, re-raise any other response error. -/
def deleteName (objs : List Name) (n : Name) : Except Nat (List Name) :=
  match delete_object objs n with
  | Except.ok rest => Except.ok rest
  | Except.error s => if s = 404 then Except.ok objs else Except.error s

/-- The adapter delete abstracted over the remote outcome: the error value
is the response status; 404 is swallowed, anything else re-raised. -/
def deleteWith (remote : Except Nat Unit) : Except Nat Unit :=
  match remote with
  | Except.ok _ => Except.ok ()
  | Except.error s => if s = 404 then Except.ok () else Except.error s

/-- Failure modes of the metadata fetch in the external client library. -/
inductive FetchErr where
  | noSuchObject
  | respError (status : Nat)
deriving DecidableEq

/-- The adapter exists check abstracted over the outcome of the metadata
fetch: success maps to true, the no-such-object condition to false, and
every other failure propagates unchanged. -/
def existsCheck (fetch : Except FetchErr Unit) : Except FetchErr Bool :=
  match fetch with
  | Except.ok _ => Except.ok true
  | Except.error FetchErr.noSuchObject => Except.ok false
  | Except.error e => Except.error e

/-- State of a storage file handle: the manually tracked cursor and the
lazily bound remote object reference (holding the object bytes). -/
structure FileState where
  pos : Nat
  fileRef : Option (List Nat)
deriving DecidableEq

/-- Model of the external client library object read: a byte range of the
object data from the given offset, where a negative size means all
remaining bytes. -/
def objRead (data : List Nat) (sz : Int) (off : Nat) : List Nat :=
  if sz < 0 then data.drop off else (data.drop off).take sz.toNat

/-- The Python coercion of the requested byte count: a missing or zero
count falls through the falsy-or to minus one. -/
def pyOrNeg1 : Option Int → Int
  | none => -1
  | some n => if n = 0 then -1 else n

/-- The handle read: accessing the file attribute binds the remote object
on first use, then a range read at the cursor, then the cursor advances by
the number of bytes returned. -/
def readF (remote : List Nat) (nb : Option Int) (st : FileState) :
    List Nat × FileState :=
  match st.fileRef with
  | some d =>
    let out := objRead d (pyOrNeg1 nb) st.pos
    (out, { st with pos := st.pos + out.length })
  | none =>
    let out := objRead remote (pyOrNeg1 nb) st.pos
    (out, { pos := st.pos + out.length, fileRef := some remote })

/-- The handle open: resets the cursor only. -/
def openF (st : FileState) : FileState := { st with pos := 0 }

/-- The handle close: resets the cursor only. -/
def closeF (st : FileState) : FileState := { st with pos := 0 }

/-- The handle seek: sets the cursor directly. -/
def seekF (p : Nat) (st : FileState) : FileState := { st with pos := p }

/-- Explicit detachment (assigning None to the file attribute): clears the
bound remote object reference. -/
def detachF (st : FileState) : FileState := { st with fileRef := none }

/-- The closed predicate: no bound remote object reference exists. -/
def closedF (st : FileState) : Bool := st.fileRef.isNone

/-- A freshly constructed handle: cursor zero, nothing bound. -/
def freshHandle : FileState := { pos := 0, fileRef := none }

/-- State of the lazy size attribute of a handle, with an instrumentation
counter for the remote size fetches performed. -/
structure SizeState where
  cache : Option Nat
  fetchCount : Nat
deriving DecidableEq

/-- The size getter: return the memoized value when present, otherwise
fetch the remote size once, memoize it and count the fetch. -/
def getSizeF (remote : Nat) (st : SizeState) : Nat × SizeState :=
  match st.cache with
  | some v => (v, st)
  | none => (remote, { cache := some remote, fetchCount := st.fetchCount + 1 })

/-- The size setter: direct assignment overrides the memoized value. -/
def setSizeF (v : Nat) (st : SizeState) : SizeState := { st with cache := some v }

/-- Accesses to the size attribute of one handle instance. -/
inductive SizeOp where
  | get
  | set (v : Nat)

/-- Run a sequence of size accesses over the handle state. -/
def runSizeOps (remote : Nat) : List SizeOp → SizeState → SizeState
  | [], st => st
  | SizeOp.get :: ops, st => runSizeOps remote ops (getSizeF remote st).2
  | SizeOp.set v :: ops, st => runSizeOps remote ops (setSizeF v st)

/-- The size state of a freshly constructed handle. -/
def freshSize : SizeState := { cache := none, fetchCount := 0 }

/-- Model of an external client library container: its public flag and its
public base URI. -/
structure Container where
  is_public : Bool
  uri : Name
deriving DecidableEq

/-- Model of the external make_public call. -/
def make_public (c : Container) : Container := { c with is_public := true }

/-- The container-related state of the storage adapter: the bound container
and the cached public base URI. -/
structure AdapterState where
  bound : Option Container
  cachedUri : Option Name
deriving DecidableEq

/-- The container setter: make the container publicly readable when it is
not already, drop the cached public base URI, and bind the container. -/
def set_container (_st : AdapterState) (c : Container) : AdapterState :=
  { bound := some (if c.is_public then c else make_public c), cachedUri := none }

/-- The container getter: return the bound container, lazily fetching and
assigning one through the setter when none is bound. -/
def get_container (fetched : Container) (st : AdapterState) : Container × AdapterState :=
  match st.bound with
  | some c => (c, st)
  | none =>
    let st2 := set_container st fetched
    (st2.bound.getD fetched, st2)

/-- The CNAME rewrite table lookup: replace the URI when aliased. -/
def cnameLookup (cn : List (Name × Name)) (u : Name) : Name :=
  match cn.lookup u with
  | some v => v
  | none => u

/-- The container URL getter: cache the public base URI of the bound
container on first use, apply the CNAME rewrite, and return it. -/
def get_container_url (cn : List (Name × Name)) (fetched : Container)
    (st : AdapterState) : Name × AdapterState :=
  let r :=
    match st.cachedUri with
    | some u => (u, st)
    | none =>
      let g := get_container fetched st
      (g.1.uri, { g.2 with cachedUri := some g.1.uri })
  let u1 := cnameLookup cn r.1
  (u1, { r.2 with cachedUri := some u1 })

/-- Container-related operations of the storage adapter. -/
inductive AdapterOp where
  | setc (c : Container)
  | getc (fetched : Container)
  | geturl (cn : List (Name × Name)) (fetched : Container)

/-- Run a sequence of adapter operations over the adapter state. -/
def runAdapter : List AdapterOp → AdapterState → AdapterState
  | [], st => st
  | AdapterOp.setc c :: ops, st => runAdapter ops (set_container st c)
  | AdapterOp.getc f :: ops, st => runAdapter ops (get_container f st).2
  | AdapterOp.geturl cn f :: ops, st => runAdapter ops (get_container_url cn f st).2

/-- The adapter state right after construction: nothing bound, no cache. -/
def initialAdapter : AdapterState := { bound := none, cachedUri := none }

/-- Every bound container of the state is publicly readable. -/
def containerPublic (st : AdapterState) : Prop :=
  ∀ c, st.bound = some c → c.is_public = true

/-- Helper: when no character of the list is a slash, the find returns none. -/
theorem findSlashNoneOfAll (l : List Char) (h : ∀ c ∈ l, ¬(c = '/')) :
    findSlashIdx l = none := by
  induction l with
  | nil => rfl
  | cons a as ih =>
    have ha : ¬(a = '/') := h a (List.mem_cons_self a as)
    have has : ∀ c ∈ as, ¬(c = '/') := fun c hc => h c (List.mem_cons_of_mem a hc)
    simp [findSlashIdx, ha, ih has]

/-- Claim C1 counterexample: full_listdir over the root on the three-object
container does not return the directory entry with a trailing slash. -/
theorem fullListdirRootCounterexample :
    ¬ (full_listdir [exA, exBC, exBDE] [] = ([['b', '/']], [exA])) := by decide

/-- Claim C1 (amended): full_listdir over the empty path on a container
listing exactly a.txt, b/c.txt, b/d/e.txt returns dirs equal to the single
entry b (the substring up to but excluding the first embedded slash,
deduplicated and sorted) and files equal to a.txt alone; the nested object
b/d/e.txt surfaces neither as a file nor as a second-level directory. -/
theorem fullListdirRootExample :
    full_listdir [exA, exBC, exBDE] [] = ([['b']], [exA]) := by decide

/-- Claim C2: any listed name whose remainder after prefix stripping has no
slash strictly after its first character and strictly before its last
character is classified by the full_listdir loop body as a file entry when
non-empty (directories unchanged) and contributes nothing when empty; in
particular single-character names and names whose only slash is leading or
trailing are files, never directories. -/
theorem noInteriorSlashIsFile (plen : Nat) (acc : List Name × List Name) (name0 : Name)
    (h : ∀ c ∈ ((name0.drop plen).drop 1).dropLast, ¬(c = '/')) :
    ((name0.drop plen ≠ []) →
      listdirStep plen acc name0 = (acc.1, acc.2 ++ [name0.drop plen])) ∧
    ((name0.drop plen = []) → listdirStep plen acc name0 = acc) ∧
    full_listdir [['a'], ['/', 'x'], ['x', '/'], ['a', 'b']] [] =
      ([], [['a'], ['/', 'x'], ['x', '/'], ['a', 'b']]) := by
  have h0 : findSlashIdx ((name0.drop plen).drop 1).dropLast = none :=
    findSlashNoneOfAll _ h
  refine ⟨fun hne => ?_, fun he => ?_, by decide⟩
  · simp only [listdirStep, pyFindSlash]
    rw [h0]
    simp [hne]
  · simp [listdirStep, pyFindSlash, he, findSlashIdx]

/-- Claim C2 witness: the single-character name a at the root is appended
as a file entry and adds no directory entry. -/
theorem noInteriorSlashIsFileWitness :
    listdirStep 0 ([], []) ['a'] = ([], [['a']]) :=
  (noInteriorSlashIsFile 0 ([], []) ['a'] (by decide)).1 (by decide)

/-- Helper: the listdir accumulation loop is the prefix-stripping map. -/
theorem foldlAppendMap (k : Nat) (l : List Name) :
    ∀ fs : List Name,
      l.foldl (fun a n => a ++ [n.drop k]) fs = fs ++ l.map (fun n => n.drop k) := by
  induction l with
  | nil => intro fs; simp
  | cons a as ih => intro fs; simp [ih]

/-- Claim C3: listdir normalises the path with a trailing slash, returns an
empty directory list, and returns every listed object name with the
normalised prefix removed in listing order; concretely, listdir of b over
the three-object container is the pair of the empty list with c.txt and
d/e.txt. -/
theorem listdirQuick :
    (∀ objs p, listdir objs p =
      ([], (listObjects objs (normalizePath p)).map
        (fun n => n.drop (normalizePath p).length))) ∧
    listdir [exA, exBC, exBDE] ['b'] =
      ([], [['c', '.', 't', 'x', 't'], ['d', '/', 'e', '.', 't', 'x', 't']]) := by
  refine ⟨fun objs p => ?_, by decide⟩
  simp [listdir, foldlAppendMap]

/-- Claim C4: the adapter delete succeeds when the remote delete reports a
404 not-found response, re-raises any other response error unchanged, and
over the container model two consecutive deletes of the same name both
return without raising. -/
theorem deleteIdempotent :
    deleteWith (Except.error 404) = Except.ok () ∧
    (∀ s : Nat, s ≠ 404 → deleteWith (Except.error s) = Except.error s) ∧
    (∀ objs n, ∃ o2 o3, deleteName objs n = Except.ok o2 ∧
      deleteName o2 n = Except.ok o3) := by
  refine ⟨rfl, fun s hs => by simp [deleteWith, hs], fun objs n => ?_⟩
  by_cases h1 : n ∈ objs
  · by_cases h2 : n ∈ objs.erase n
    · exact ⟨objs.erase n, (objs.erase n).erase n,
        by simp [deleteName, delete_object, h1], by simp [deleteName, delete_object, h2]⟩
    · exact ⟨objs.erase n, objs.erase n,
        by simp [deleteName, delete_object, h1], by simp [deleteName, delete_object, h2]⟩
  · exact ⟨objs, objs, by simp [deleteName, delete_object, h1],
      by simp [deleteName, delete_object, h1]⟩

/-- Claim C4 witness: a non-404 response error is re-raised unchanged. -/
theorem deleteIdempotentWitness :
    deleteWith (Except.error 500) = Except.error 500 :=
  deleteIdempotent.2.1 500 (by decide)

/-- Claim C5: the exists check returns false exactly when the metadata
fetch raises the no-such-object condition, returns true whenever the fetch
succeeds, and propagates any other failure of the fetch unchanged. -/
theorem existsSpec :
    (∀ r : Except FetchErr Unit,
      existsCheck r = Except.ok false ↔ r = Except.error FetchErr.noSuchObject) ∧
    existsCheck (Except.ok ()) = Except.ok true ∧
    (∀ s, existsCheck (Except.error (FetchErr.respError s)) =
      Except.error (FetchErr.respError s)) := by
  refine ⟨fun r => ?_, rfl, fun s => rfl⟩
  cases r with
  | ok u => simp [existsCheck]
  | error e => cases e <;> simp [existsCheck]

/-- Helper: the object data is the first chunk followed by the bytes from
the offset the chunk read left. -/
theorem takeThenRest (l : List Nat) (n : Nat) :
    l.take n ++ l.drop (min n l.length) = l := by
  rcases Nat.le_total n l.length with h | h
  · rw [Nat.min_eq_left h, List.take_append_drop]
  · rw [Nat.min_eq_right h, List.take_of_length_le h, List.drop_length, List.append_nil]

/-- Helper: the first chunked read on a fresh handle returns the first five
bytes, binds the object, and leaves the cursor at the returned length. -/
theorem readFiveFresh (remote : List Nat) :
    readF remote (some 5) freshHandle =
      (remote.take 5, { pos := (remote.take 5).length, fileRef := some remote }) := by
  have h5 : pyOrNeg1 (some 5) = 5 := by norm_num [pyOrNeg1]
  simp [readF, freshHandle, h5, objRead]

/-- Claim C6: every read advances the cursor by exactly the number of bytes
returned, and reading a freshly opened handle in two chunks, five bytes and
then the rest, concatenates to the single whole read of a freshly opened
handle, with the second read starting at the offset the first left. -/
theorem twoChunkRead :
    (∀ remote st nb, ((readF remote nb st).2).pos =
      st.pos + ((readF remote nb st).1).length) ∧
    (∀ remote : List Nat,
      (readF remote (some 5) freshHandle).1 ++
        (readF remote none (readF remote (some 5) freshHandle).2).1 =
        (readF remote none freshHandle).1 ∧
      ((readF remote (some 5) freshHandle).2).pos =
        ((readF remote (some 5) freshHandle).1).length) := by
  constructor
  · intro remote st nb
    rcases st with ⟨p, fr⟩
    cases fr <;> simp [readF]
  · intro remote
    rw [readFiveFresh]
    refine ⟨?_, rfl⟩
    simp [readF, freshHandle, objRead, pyOrNeg1, takeThenRest]

/-- Claim C7: the remote size fetch happens at most once per handle: any
sequence of accesses from a fresh handle performs at most one fetch, a
memoized value is returned unchanged with no fetch, the first access on a
fresh handle fetches and memoizes, and after a direct override no fetch
ever occurs. -/
theorem sizeMemoized :
    (∀ remote ops, (runSizeOps remote ops freshSize).fetchCount ≤ 1) ∧
    (∀ remote st v, st.cache = some v → getSizeF remote st = (v, st)) ∧
    (∀ remote, getSizeF remote freshSize =
      (remote, { cache := some remote, fetchCount := 1 })) ∧
    (∀ remote ops st v,
      (runSizeOps remote ops (setSizeF v st)).fetchCount = st.fetchCount) := by
  have hcached : ∀ remote (st : SizeState) v, st.cache = some v →
      getSizeF remote st = (v, st) := by
    intro remote st v hv
    simp [getSizeF, hv]
  have hstable : ∀ remote ops (st : SizeState), st.cache.isSome →
      (runSizeOps remote ops st).fetchCount = st.fetchCount := by
    intro remote ops
    induction ops with
    | nil => intro st _; rfl
    | cons op ops ih =>
      intro st hs
      cases op with
      | get =>
        rcases Option.isSome_iff_exists.mp hs with ⟨v, hv⟩
        simp [runSizeOps, hcached remote st v hv, ih st hs]
      | set v => simpa [runSizeOps, setSizeF] using ih _ (by simp [setSizeF])
  have hbound : ∀ remote ops (st : SizeState),
      (runSizeOps remote ops st).fetchCount ≤
        st.fetchCount + (if st.cache.isSome then 0 else 1) := by
    intro remote ops
    induction ops with
    | nil => intro st; exact Nat.le_add_right _ _
    | cons op ops ih =>
      intro st
      cases op with
      | get =>
        rcases hc : st.cache with _ | v
        · have h2 := ih { cache := some remote, fetchCount := st.fetchCount + 1 }
          simp [runSizeOps, getSizeF, hc] at h2 ⊢
          omega
        · have h2 := ih st
          simp [runSizeOps, getSizeF, hc] at h2 ⊢
          omega
      | set v =>
        have h2 := ih (setSizeF v st)
        simp [runSizeOps, setSizeF] at h2 ⊢
        split <;> omega
  refine ⟨fun remote ops => ?_, hcached, fun remote => rfl, fun remote ops st v => ?_⟩
  · have := hbound remote ops freshSize
    simpa [freshSize] using this
  · simpa [setSizeF] using hstable remote ops (setSizeF v st) (by simp [setSizeF])

/-- Claim C7 witness: a memoized size is returned unchanged. -/
theorem sizeMemoizedWitness :
    getSizeF 7 { cache := some 3, fetchCount := 1 } =
      (3, { cache := some 3, fetchCount := 1 }) :=
  sizeMemoized.2.1 7 { cache := some 3, fetchCount := 1 } 3 rfl

/-- Claim C9: close resets the cursor to zero and leaves the bound remote
object reference untouched; open resets the cursor without binding or
clearing the reference; seek and read never clear it and explicit
detachment is what clears it; the closed predicate holds exactly when no
reference is bound, so a fresh handle is closed and any handle after a read
is not. -/
theorem closeFrame :
    (∀ st, (closeF st).pos = 0 ∧ (closeF st).fileRef = st.fileRef) ∧
    (∀ st, (openF st).pos = 0 ∧ (openF st).fileRef = st.fileRef) ∧
    (∀ st p, (seekF p st).fileRef = st.fileRef) ∧
    (∀ st, (detachF st).fileRef = none) ∧
    (∀ st, closedF st = true ↔ st.fileRef = none) ∧
    (∀ remote nb st, ((readF remote nb st).2).fileRef.isSome = true) ∧
    closedF freshHandle = true := by
  refine ⟨fun st => ⟨rfl, rfl⟩, fun st => ⟨rfl, rfl⟩, fun st p => rfl,
    fun st => rfl, fun st => ?_, fun remote nb st => ?_, rfl⟩
  · simp [closedF, Option.isNone_iff_eq_none]
  · rcases st with ⟨p, fr⟩
    cases fr <;> simp [readF]

/-- Claim C10: a read request of zero bytes behaves identically to a read
with no byte count, because the falsy-or coercion turns zero into minus
one: it returns all remaining bytes from the cursor and advances the
cursor past them, rather than returning nothing and staying put. -/
theorem readZeroBytes :
    (∀ remote st, readF remote (some 0) st = readF remote none st) ∧
    readF [1, 2, 3] (some 0) { pos := 1, fileRef := some [1, 2, 3] } =
      ([2, 3], { pos := 3, fileRef := some [1, 2, 3] }) ∧
    (readF [1, 2, 3] (some 0) { pos := 1, fileRef := some [1, 2, 3] }).1 ≠
      ([] : List Nat) := by
  refine ⟨fun remote st => ?_, by decide, by decide⟩
  have h0 : pyOrNeg1 (some 0) = pyOrNeg1 none := by norm_num [pyOrNeg1]
  rcases st with ⟨p, fr⟩
  cases fr <;> simp [readF, h0]

/-- Helper: the container setter always binds a publicly readable
container. -/
theorem setContainerPublic (st : AdapterState) (c : Container) :
    containerPublic (set_container st c) := by
  intro c2 h2
  simp only [set_container, Option.some.injEq] at h2
  subst h2
  by_cases hp : c.is_public <;> simp [hp, make_public]

/-- Helper: from a state whose bound container is public, the getter
returns a public container and preserves the invariant. -/
theorem getContainerPublic (f : Container) (st : AdapterState)
    (hI : containerPublic st) :
    (get_container f st).1.is_public = true ∧
      containerPublic (get_container f st).2 := by
  rcases hb : st.bound with _ | c
  · constructor
    · simp only [get_container, hb, set_container]
      by_cases hp : f.is_public <;> simp [hp, make_public]
    · simp only [get_container, hb]
      exact setContainerPublic st f
  · constructor
    · simp only [get_container, hb]
      exact hI c hb
    · simp only [get_container, hb]
      exact hI

/-- Helper: the URL getter preserves the bound-container invariant. -/
theorem getUrlPublic (cn : List (Name × Name)) (f : Container) (st : AdapterState)
    (hI : containerPublic st) :
    containerPublic (get_container_url cn f st).2 := by
  rcases hc : st.cachedUri with _ | u
  · intro c2 h2
    simp only [get_container_url, hc] at h2
    exact (getContainerPublic f st hI).2 c2 h2
  · intro c2 h2
    simp only [get_container_url, hc] at h2
    exact hI c2 h2

/-- Helper: every adapter run preserves the bound-container invariant. -/
theorem runAdapterPublic (ops : List AdapterOp) :
    ∀ st : AdapterState, containerPublic st → containerPublic (runAdapter ops st) := by
  induction ops with
  | nil => exact fun st h => h
  | cons op ops ih =>
    intro st hI
    cases op with
    | setc c => exact ih _ (setContainerPublic st c)
    | getc f => exact ih _ (getContainerPublic f st hI).2
    | geturl cn f => exact ih _ (getUrlPublic cn f st hI)

/-- Claim C8: in every state reachable from the initial adapter state, any
bound container is publicly readable; the container setter always drops the
cached public base URI; the container the getter hands out in a reachable
state is publicly readable; and when no URI is cached the issued URL is the
CNAME rewrite of the public base URI of that public container. -/
theorem containerAlwaysPublic :
    (∀ ops c, (runAdapter ops initialAdapter).bound = some c → c.is_public = true) ∧
    (∀ st c, (set_container st c).cachedUri = none) ∧
    (∀ ops f, (get_container f (runAdapter ops initialAdapter)).1.is_public = true) ∧
    (∀ ops cn f, (runAdapter ops initialAdapter).cachedUri = none →
      (get_container_url cn f (runAdapter ops initialAdapter)).1 =
        cnameLookup cn (get_container f (runAdapter ops initialAdapter)).1.uri) := by
  have hinit : containerPublic initialAdapter := by
    intro c hc
    simp [initialAdapter] at hc
  have hreach : ∀ ops, containerPublic (runAdapter ops initialAdapter) :=
    fun ops => runAdapterPublic ops initialAdapter hinit
  refine ⟨fun ops c hc => hreach ops c hc, fun st c => rfl,
    fun ops f => (getContainerPublic f _ (hreach ops)).1, fun ops cn f hnone => ?_⟩
  simp [get_container_url, hnone]

/-- Claim C8 witness: binding a non-public container through the setter
yields a reachable state whose bound container is public, and the URL
issued there is the rewrite of that public base URI. -/
theorem containerAlwaysPublicWitness :
    Container.is_public { is_public := true, uri := ['u'] } = true ∧
    (get_container_url [] { is_public := false, uri := ['v'] }
        (runAdapter [AdapterOp.setc { is_public := false, uri := ['u'] }]
          initialAdapter)).1 =
      cnameLookup [] (get_container { is_public := false, uri := ['v'] }
        (runAdapter [AdapterOp.setc { is_public := false, uri := ['u'] }]
          initialAdapter)).1.uri :=
  ⟨containerAlwaysPublic.1 [AdapterOp.setc { is_public := false, uri := ['u'] }]
      { is_public := true, uri := ['u'] } (by decide),
    containerAlwaysPublic.2.2.2 [AdapterOp.setc { is_public := false, uri := ['u'] }]
      [] { is_public := false, uri := ['v'] } (by decide)⟩
